import Mathlib

/-!
Shallow embedding of the Robinhood-backend brokerage services
(`services/price_alerts.py`, `services/price_alerts_reference.py`,
`services/trading.py`, `schemas/order.py`) together with proofs of the
specified properties of alert evaluation and order execution.

Conventions of the embedding:
- SQLAlchemy rows become Lean structures; a table becomes a `List` of rows;
  the database session becomes an explicit `DB` state record that each
  service function takes and returns.
- Python `float` prices and quantities are modelled as `ℚ` (the arithmetic
  expressions of the source, read over exact numbers).
- `datetime.utcnow()` is modelled by an explicit `now : Nat` timestamp
  argument; `DateTime` columns are `Nat` (or `Option Nat` when nullable).
- Raised `HTTPException`s become an `Except TradingError` result; the state
  component still carries any writes committed before the raise, exactly as
  the source commits before raising.
- An ORM mutation of a fetched row followed by `db.commit()` is modelled as
  rewriting the row with the matching primary key in the table list.
-/

namespace Robinhood

/-- Row of the `stocks` table (`models/stock.py`); only the columns that the
alert and trading services read are carried. -/
structure Stock where
  symbol : String
  current_price : ℚ
  deriving DecidableEq

/-- Row of the `price_alerts` table (`models/price_alert.py`). -/
structure PriceAlert where
  id : Nat
  user_id : Nat
  symbol : String
  target_price : ℚ
  condition : String
  is_triggered : Bool
  is_active : Bool
  created_at : Nat
  triggered_at : Option Nat
  deriving DecidableEq

/-- Row of the `portfolio_holdings` table (`models/portfolio.py`). -/
structure Holding where
  user_id : Nat
  symbol : String
  quantity : ℚ
  average_buy_price : ℚ
  deriving DecidableEq

/-- Row of the `orders` table (`models/order.py`). -/
structure Order where
  id : Nat
  user_id : Nat
  symbol : String
  order_type : String
  side : String
  quantity : ℚ
  limit_price : Option ℚ
  filled_quantity : ℚ
  filled_price : Option ℚ
  status : String
  created_at : Nat
  updated_at : Nat
  deriving DecidableEq

/-- Request body `OrderCreate` (`schemas/order.py`). -/
structure OrderCreate where
  symbol : String
  order_type : String
  side : String
  quantity : ℚ
  limit_price : Option ℚ
  deriving DecidableEq

/-- The database state threaded through the services: the three tables the
claims are about, plus the calling account's cash balance
(`User.balance` in `models/user.py`). -/
structure DB where
  stocks : List Stock
  alerts : List PriceAlert
  balance : ℚ
  holdings : List Holding
  orders : List Order
  deriving DecidableEq

/-- One constructor per `raise HTTPException(...)` site of
`services/trading.py`; the carried data is what the detail string reports. -/
inductive TradingError where
  | stockNotFound (symbol : String)
  | limitPriceRequired
  | insufficientFunds (required available : ℚ)
  | insufficientShares (required available : ℚ)
  | orderNotFound
  | cannotCancel (status : String)
  deriving DecidableEq

/-- HTTP status code attached to each raise site of `services/trading.py`. -/
def TradingError.status_code : TradingError → Nat
  | .stockNotFound _ => 404
  | .orderNotFound => 404
  | _ => 400

/-- Python `str.upper()`: upper-case every character. -/
def pyUpper (s : String) : String :=
  String.mk (s.data.map Char.toUpper)

/-- Python `str.lower()`: lower-case every character. -/
def pyLower (s : String) : String :=
  String.mk (s.data.map Char.toLower)

/-- `MarketService.get_stock` (`services/market.py` lines 49-52): first row
of `stocks` whose symbol equals the upper-cased query symbol. -/
def getStock (stocks : List Stock) (symbol : String) : Option Stock :=
  stocks.find? (fun s => s.symbol == pyUpper symbol)

/-- Filter of the alert query in `check_and_trigger_alerts`
(`services/price_alerts.py` lines 172-176): the user's active,
not-yet-triggered alerts. -/
def isEligible (uid : Nat) (a : PriceAlert) : Bool :=
  a.user_id == uid && a.is_active && !a.is_triggered

/-- Per-alert trigger test of the loop body (`services/price_alerts.py`
lines 181-191): a missing stock is skipped (`continue`), otherwise the
boundary-inclusive above/below comparison decides. -/
def shouldTrigger (stocks : List Stock) (a : PriceAlert) : Bool :=
  match getStock stocks a.symbol with
  | none => false
  | some stock =>
    if a.condition == "above" && decide (stock.current_price ≥ a.target_price) then true
    else if a.condition == "below" && decide (stock.current_price ≤ a.target_price) then true
    else false

/-- Mutation applied to a triggering alert (`services/price_alerts.py`
lines 194-195): flip the flag and stamp the time. -/
def triggerAlert (now : Nat) (a : PriceAlert) : PriceAlert :=
  { a with is_triggered := true, triggered_at := some now }

/-- Combined condition under which an alert row is mutated by one evaluation
pass: it is selected by the query and its price comparison holds. -/
def fires (stocks : List Stock) (uid : Nat) (a : PriceAlert) : Bool :=
  isEligible uid a && shouldTrigger stocks a

/-- Effect of one evaluation pass on a single alert row. -/
def evalAlert (stocks : List Stock) (now uid : Nat) (a : PriceAlert) : PriceAlert :=
  if fires stocks uid a then triggerAlert now a else a

/-- `PriceAlertService.check_and_trigger_alerts` (`services/price_alerts.py`
lines 150-201): the loop mutates each selected, firing alert in place and
collects the mutated rows in query order; the final `db.commit()` persists
all mutations at once.  Returns the new state and the triggered list. -/
def check_and_trigger_alerts (now uid : Nat) (db : DB) : DB × List PriceAlert :=
  ({ db with alerts := db.alerts.map (evalAlert db.stocks now uid) },
   (db.alerts.filter (fun a => fires db.stocks uid a)).map (triggerAlert now))

/-- Number of `db.commit()` calls performed by one invocation of the
production `check_and_trigger_alerts` (`services/price_alerts.py` lines
198-199): one when the triggered list is non-empty, otherwise none. -/
def check_commit_count (now uid : Nat) (db : DB) : Nat :=
  if (check_and_trigger_alerts now uid db).2.isEmpty then 0 else 1

/-- Commit of a single mutated alert row back into the table, keyed by the
primary key `id`. -/
def updateAlertById (alerts : List PriceAlert) (a : PriceAlert) : List PriceAlert :=
  alerts.map (fun b => if b.id == a.id then a else b)

/-- Loop body of the reference implementation
(`services/price_alerts_reference.py` lines 118-146), iterating over the
query snapshot: each triggering alert is mutated and committed on its own
(`db.commit()` once per trigger), so the table state is rewritten after
every trigger.  Returns the final table, the triggered list, and the number
of commits performed. -/
def refLoop (stocks : List Stock) (now : Nat) :
    List PriceAlert → List PriceAlert → List PriceAlert × List PriceAlert × Nat
  | [], alerts => (alerts, [], 0)
  | a :: rest, alerts =>
    if shouldTrigger stocks a then
      let a2 := triggerAlert now a
      let out := refLoop stocks now rest (updateAlertById alerts a2)
      (out.1, a2 :: out.2.1, out.2.2 + 1)
    else
      refLoop stocks now rest alerts

/-- Reference `PriceAlertService.check_and_trigger_alerts`
(`services/price_alerts_reference.py` lines 99-148): same query, then the
one-commit-per-trigger loop over the snapshot. -/
def reference_check_and_trigger (now uid : Nat) (db : DB) :
    DB × List PriceAlert × Nat :=
  let snapshot := db.alerts.filter (isEligible uid)
  let out := refLoop db.stocks now snapshot db.alerts
  ({ db with alerts := out.1 }, out.2.1, out.2.2)

/-- `OrderCreate.validate_order_type` (`schemas/order.py` lines 13-18). -/
def validate_order_type (v : String) : Except String String :=
  if pyLower v == "market" || pyLower v == "limit" then Except.ok (pyLower v)
  else Except.error "order_type must be market or limit"

/-- `OrderCreate.validate_side` (`schemas/order.py` lines 20-25). -/
def validate_side (v : String) : Except String String :=
  if pyLower v == "buy" || pyLower v == "sell" then Except.ok (pyLower v)
  else Except.error "side must be buy or sell"

/-- `OrderCreate.validate_quantity` (`schemas/order.py` lines 27-32):
rejects any non-positive quantity at the request-schema level. -/
def validate_quantity (v : ℚ) : Except String ℚ :=
  if v ≤ 0 then Except.error "quantity must be greater than 0" else Except.ok v

/-- Python truthiness of the optional limit price: `not order_data.limit_price`
(`services/trading.py` line 33) is true when the field is `None` and also
when it is `0`. -/
def pyFalsy : Option ℚ → Bool
  | none => true
  | some v => v == 0

/-- First matching row of `portfolio_holdings` for (user, symbol)
(`services/trading.py` lines 94-97 and 116-119). -/
def findHolding (holdings : List Holding) (uid : Nat) (symbol : String) :
    Option Holding :=
  holdings.find? (fun h => h.user_id == uid && h.symbol == symbol)

/-- Mutate the first row matching `p` (the row `.first()` returned). -/
def updateFirstH (p : Holding → Bool) (f : Holding → Holding) :
    List Holding → List Holding
  | [] => []
  | h :: hs => if p h then f h :: hs else h :: updateFirstH p f hs

/-- Delete the first row matching `p` (`db.delete(holding)`). -/
def removeFirstH (p : Holding → Bool) : List Holding → List Holding
  | [] => []
  | h :: hs => if p h then hs else h :: removeFirstH p hs

/-- Commit a mutated order row back into the table, keyed by `id`. -/
def updateOrderById (orders : List Order) (o : Order) : List Order :=
  orders.map (fun x => if x.id == o.id then o else x)

/-- Rejection path shared by the three insufficient-resource raise sites of
`TradingService._execute_order` (`services/trading.py` lines 82-88 and
121-128): set the order status to rejected, commit, raise. -/
def rejectOrder (order : Order) (e : TradingError) (db : DB) :
    DB × Except TradingError Order :=
  ({ db with orders := updateOrderById db.orders { order with status := "rejected" } },
   Except.error e)

/-- Fill epilogue of `TradingService._execute_order` (`services/trading.py`
lines 138-146): record fill quantity and price, mark filled, commit. -/
def fillOrder (now : Nat) (price : ℚ) (order : Order) (db : DB) :
    DB × Except TradingError Order :=
  let filled := { order with
    filled_quantity := order.quantity,
    filled_price := some price,
    status := "filled",
    updated_at := now }
  ({ db with orders := updateOrderById db.orders filled }, Except.ok filled)

/-- `TradingService._execute_order` (`services/trading.py` lines 75-146).
The buy side checks funds, debits the balance and upserts the holding with
the weighted-average cost; the sell side checks shares, credits the balance
and decrements (or deletes) the holding; both then run the fill epilogue. -/
def execute_order (now uid : Nat) (price : ℚ) (order : Order) (db : DB) :
    DB × Except TradingError Order :=
  let total_cost := price * order.quantity
  if order.side == "buy" then
    if db.balance < total_cost then
      rejectOrder order (TradingError.insufficientFunds total_cost db.balance) db
    else
      let db1 := { db with balance := db.balance - total_cost }
      let db2 :=
        match findHolding db.holdings uid order.symbol with
        | some holding =>
          let total_shares := holding.quantity + order.quantity
          let total_value := holding.quantity * holding.average_buy_price
            + order.quantity * price
          let holdings2 :=
            updateFirstH (fun h => h.user_id == uid && h.symbol == order.symbol)
              (fun h => { h with
                average_buy_price := total_value / total_shares,
                quantity := total_shares }) db1.holdings
          { db1 with holdings := holdings2 }
        | none =>
          let newRow : Holding :=
            { user_id := uid, symbol := order.symbol,
              quantity := order.quantity, average_buy_price := price }
          { db1 with holdings := db1.holdings ++ [newRow] }
      fillOrder now price order db2
  else if order.side == "sell" then
    match findHolding db.holdings uid order.symbol with
    | none =>
      rejectOrder order (TradingError.insufficientShares order.quantity 0) db
    | some holding =>
      if holding.quantity < order.quantity then
        rejectOrder order
          (TradingError.insufficientShares order.quantity holding.quantity) db
      else
        let db1 := { db with balance := db.balance + total_cost }
        let db2 :=
          if holding.quantity - order.quantity == 0 then
            let holdings2 :=
              removeFirstH (fun h => h.user_id == uid && h.symbol == order.symbol)
                db1.holdings
            { db1 with holdings := holdings2 }
          else
            let holdings2 :=
              updateFirstH (fun h => h.user_id == uid && h.symbol == order.symbol)
                (fun h => { h with quantity := h.quantity - order.quantity })
                db1.holdings
            { db1 with holdings := holdings2 }
        fillOrder now price order db2
  else
    fillOrder now price order db

/-- `TradingService.place_order` (`services/trading.py` lines 15-73): look
up the stock, validate the limit price (with Python truthiness), persist a
pending order, then execute market orders immediately and limit orders when
the limit is already reachable, at the current price. -/
def place_order (now newId uid : Nat) (od : OrderCreate) (db : DB) :
    DB × Except TradingError Order :=
  let symbol := pyUpper od.symbol
  match getStock db.stocks symbol with
  | none => (db, Except.error (TradingError.stockNotFound symbol))
  | some stock =>
    let current_price := stock.current_price
    if od.order_type == "limit" && pyFalsy od.limit_price then
      (db, Except.error TradingError.limitPriceRequired)
    else
      let order : Order := {
        id := newId, user_id := uid, symbol := symbol,
        order_type := od.order_type, side := od.side,
        quantity := od.quantity, limit_price := od.limit_price,
        filled_quantity := 0, filled_price := none,
        status := "pending", created_at := now, updated_at := now }
      let db1 := { db with orders := db.orders ++ [order] }
      if od.order_type == "market" then
        execute_order now uid current_price order db1
      else if od.order_type == "limit" then
        match od.limit_price with
        | some lp =>
          if od.side == "buy" && decide (lp ≥ current_price) then
            execute_order now uid current_price order db1
          else if od.side == "sell" && decide (lp ≤ current_price) then
            execute_order now uid current_price order db1
          else
            (db1, Except.ok order)
        | none => (db1, Except.ok order)
      else
        (db1, Except.ok order)

/-- `TradingService.cancel_order` (`services/trading.py` lines 148-172). -/
def cancel_order (now uid order_id : Nat) (db : DB) :
    DB × Except TradingError Order :=
  match db.orders.find? (fun o => o.id == order_id && o.user_id == uid) with
  | none => (db, Except.error TradingError.orderNotFound)
  | some o =>
    if o.status != "pending" then
      (db, Except.error (TradingError.cannotCancel o.status))
    else
      let o2 := { o with status := "cancelled", updated_at := now }
      ({ db with orders := updateOrderById db.orders o2 }, Except.ok o2)

/-! Helper lemmas about alert evaluation. -/

theorem isEligible_is_triggered_false {uid : Nat} {a : PriceAlert}
    (h : isEligible uid a = true) : a.is_triggered = false := by
  simp only [isEligible, Bool.and_eq_true, Bool.not_eq_true'] at h
  exact h.2

theorem isEligible_of_triggered {uid : Nat} {a : PriceAlert}
    (ha : a.is_triggered = true) : isEligible uid a = false := by
  simp [isEligible, ha]

theorem fires_of_triggered {stocks : List Stock} {uid : Nat} {a : PriceAlert}
    (ha : a.is_triggered = true) : fires stocks uid a = false := by
  simp [fires, isEligible_of_triggered ha]

theorem triggerAlert_is_triggered (now : Nat) (a : PriceAlert) :
    (triggerAlert now a).is_triggered = true := rfl

theorem fires_triggerAlert (stocks : List Stock) (now uid : Nat) (a : PriceAlert) :
    fires stocks uid (triggerAlert now a) = false :=
  fires_of_triggered rfl

theorem fires_evalAlert (stocks : List Stock) (now uid : Nat) (a : PriceAlert) :
    fires stocks uid (evalAlert stocks now uid a) = false := by
  unfold evalAlert
  by_cases h : fires stocks uid a = true
  · simp [h, fires_triggerAlert]
  · simp [Bool.not_eq_true] at h
    simp [h]

theorem evalAlert_of_not_fires {stocks : List Stock} {now uid : Nat} {a : PriceAlert}
    (h : fires stocks uid a = false) : evalAlert stocks now uid a = a := by
  simp [evalAlert, h]

theorem evalAlert_of_fires {stocks : List Stock} {now uid : Nat} {a : PriceAlert}
    (h : fires stocks uid a = true) : evalAlert stocks now uid a = triggerAlert now a := by
  simp [evalAlert, h]

theorem shouldTrigger_iff {stocks : List Stock} {a : PriceAlert} {s : Stock}
    (hs : getStock stocks a.symbol = some s) :
    shouldTrigger stocks a = true ↔
      (a.condition = "above" ∧ a.target_price ≤ s.current_price) ∨
      (a.condition = "below" ∧ s.current_price ≤ a.target_price) := by
  unfold shouldTrigger
  rw [hs]
  constructor
  · intro h
    by_cases h1 : (a.condition == "above" && decide (s.current_price ≥ a.target_price)) = true
    · simp only [Bool.and_eq_true, beq_iff_eq, decide_eq_true_eq] at h1
      exact Or.inl ⟨h1.1, h1.2⟩
    · by_cases h2 : (a.condition == "below" && decide (s.current_price ≤ a.target_price)) = true
      · simp only [Bool.and_eq_true, beq_iff_eq, decide_eq_true_eq] at h2
        exact Or.inr ⟨h2.1, h2.2⟩
      · simp [h1, h2] at h
  · rintro (⟨hc, hp⟩ | ⟨hc, hp⟩)
    · simp [hc, hp]
    · simp [hc, hp]

/-- Claim C1: for every active, non-triggered alert of the user whose symbol
resolves to a stock, one evaluation pass triggers it (sets `is_triggered`
and returns it in the result list) iff the boundary-inclusive rule holds:
condition above with price at or above target, or condition below with price
at or below target; an alert failing the rule is left unchanged and is not
in the returned list. -/
theorem alert_triggers_iff_boundary_rule (now uid : Nat) (db : DB)
    (a : PriceAlert) (s : Stock) (ha : a ∈ db.alerts)
    (helig : isEligible uid a = true)
    (hs : getStock db.stocks a.symbol = some s) :
    (fires db.stocks uid a = true ↔
      (a.condition = "above" ∧ a.target_price ≤ s.current_price) ∨
      (a.condition = "below" ∧ s.current_price ≤ a.target_price)) ∧
    (fires db.stocks uid a = true →
      triggerAlert now a ∈ (check_and_trigger_alerts now uid db).2 ∧
      evalAlert db.stocks now uid a = triggerAlert now a ∧
      (evalAlert db.stocks now uid a).is_triggered = true) ∧
    (fires db.stocks uid a = false →
      evalAlert db.stocks now uid a = a ∧
      a ∉ (check_and_trigger_alerts now uid db).2) := by
  refine ⟨?_, ?_, ?_⟩
  · rw [fires, helig, Bool.true_and]
    exact shouldTrigger_iff hs
  · intro hf
    refine ⟨?_, evalAlert_of_fires hf, ?_⟩
    · unfold check_and_trigger_alerts
      exact List.mem_map_of_mem _ (List.mem_filter.mpr ⟨ha, hf⟩)
    · rw [evalAlert_of_fires hf]
      exact triggerAlert_is_triggered now a
  · intro hf
    refine ⟨evalAlert_of_not_fires hf, ?_⟩
    intro hmem
    unfold check_and_trigger_alerts at hmem
    simp only [List.mem_map] at hmem
    obtain ⟨b, _, hb⟩ := hmem
    have h1 : a.is_triggered = true := by
      rw [← hb]
      exact triggerAlert_is_triggered now b
    rw [isEligible_is_triggered_false helig] at h1
    exact Bool.false_ne_true h1

/-- Witness for claim C1 at the spec example: alert on AAPL, target 170,
condition above, price 178.50 fires. -/
theorem alert_triggers_iff_boundary_rule_witness :
    let s : Stock := { symbol := "AAPL", current_price := 357/2 }
    let a : PriceAlert :=
      { id := 1, user_id := 7, symbol := "AAPL", target_price := 170,
        condition := "above", is_triggered := false, is_active := true,
        created_at := 0, triggered_at := none }
    let db : DB :=
      { stocks := [s], alerts := [a], balance := 0, holdings := [], orders := [] }
    fires db.stocks 7 a = true ∧
      triggerAlert 3 a ∈ (check_and_trigger_alerts 3 7 db).2 := by
  intro s a db
  have h := alert_triggers_iff_boundary_rule 3 7 db a s (by simp)
    (by rfl) (by rfl)
  have hf : fires db.stocks 7 a = true :=
    h.1.mpr (Or.inl ⟨rfl, by norm_num⟩)
  exact ⟨hf, (h.2.1 hf).1⟩

/-- Claim C2: a triggered alert is excluded from evaluation and never
returned or modified again, and a second evaluation pass on the state left
by a first pass returns the empty list: the pending-to-triggered transition
is one-way. -/
theorem triggered_alert_one_way (now now2 uid : Nat) (db : DB) (a : PriceAlert)
    (ha : a.is_triggered = true) :
    fires db.stocks uid a = false ∧
    evalAlert db.stocks now uid a = a ∧
    (∀ t ∈ (check_and_trigger_alerts now uid db).2,
      ∃ b ∈ db.alerts, b.is_triggered = false ∧ t = triggerAlert now b) ∧
    (check_and_trigger_alerts now2 uid (check_and_trigger_alerts now uid db).1).2
      = [] := by
  refine ⟨fires_of_triggered ha, evalAlert_of_not_fires (fires_of_triggered ha),
    ?_, ?_⟩
  · intro t ht
    unfold check_and_trigger_alerts at ht
    simp only [List.mem_map, List.mem_filter] at ht
    obtain ⟨b, ⟨hbmem, hbf⟩, hbt⟩ := ht
    have : isEligible uid b = true := by
      have := hbf
      rw [fires, Bool.and_eq_true] at this
      exact this.1
    exact ⟨b, hbmem, isEligible_is_triggered_false this, hbt.symm⟩
  · unfold check_and_trigger_alerts
    simp only [List.map_eq_nil_iff, List.filter_eq_nil_iff, List.mem_map]
    rintro x ⟨b, _, rfl⟩
    simp [fires_evalAlert]

/-- Witness for claim C2 on a one-alert state whose alert is already
triggered: nothing fires and the pass returns nothing. -/
theorem triggered_alert_one_way_witness :
    let a : PriceAlert :=
      { id := 1, user_id := 7, symbol := "AAPL", target_price := 170,
        condition := "above", is_triggered := true, is_active := true,
        created_at := 0, triggered_at := some 1 }
    let db : DB :=
      { stocks := [{ symbol := "AAPL", current_price := 357/2 }],
        alerts := [a], balance := 0, holdings := [], orders := [] }
    fires db.stocks 7 a = false ∧ evalAlert db.stocks 2 7 a = a := by
  intro a db
  have h := triggered_alert_one_way 2 5 7 db a rfl
  exact ⟨h.1, h.2.1⟩

theorem isEligible_is_active {uid : Nat} {a : PriceAlert}
    (h : isEligible uid a = true) : a.is_active = true := by
  simp only [isEligible, Bool.and_eq_true] at h
  exact h.1.2

theorem fires_isEligible {stocks : List Stock} {uid : Nat} {a : PriceAlert}
    (h : fires stocks uid a = true) : isEligible uid a = true := by
  rw [fires, Bool.and_eq_true] at h
  exact h.1

/-- Claim C10: one evaluation pass rewrites, for each firing alert, only
`is_triggered` and `triggered_at` (keeping `is_active` true); alerts that do
not fire, alerts of other users, and alerts whose symbol has no stock row
are unchanged, and the stocks, balance, holdings and orders tables are
untouched. -/
theorem check_frame_conditions (now uid : Nat) (db : DB) :
    (check_and_trigger_alerts now uid db).1.stocks = db.stocks ∧
    (check_and_trigger_alerts now uid db).1.balance = db.balance ∧
    (check_and_trigger_alerts now uid db).1.holdings = db.holdings ∧
    (check_and_trigger_alerts now uid db).1.orders = db.orders ∧
    (check_and_trigger_alerts now uid db).1.alerts
      = db.alerts.map (evalAlert db.stocks now uid) ∧
    (∀ a, fires db.stocks uid a = false → evalAlert db.stocks now uid a = a) ∧
    (∀ a, a.user_id ≠ uid → evalAlert db.stocks now uid a = a) ∧
    (∀ a, getStock db.stocks a.symbol = none → evalAlert db.stocks now uid a = a) ∧
    (∀ a, fires db.stocks uid a = true →
      (evalAlert db.stocks now uid a).id = a.id ∧
      (evalAlert db.stocks now uid a).symbol = a.symbol ∧
      (evalAlert db.stocks now uid a).target_price = a.target_price ∧
      (evalAlert db.stocks now uid a).condition = a.condition ∧
      (evalAlert db.stocks now uid a).user_id = a.user_id ∧
      (evalAlert db.stocks now uid a).created_at = a.created_at ∧
      (evalAlert db.stocks now uid a).is_active = true ∧
      (evalAlert db.stocks now uid a).is_triggered = true ∧
      (evalAlert db.stocks now uid a).triggered_at = some now) := by
  refine ⟨rfl, rfl, rfl, rfl, rfl, ?_, ?_, ?_, ?_⟩
  · intro a h
    exact evalAlert_of_not_fires h
  · intro a h
    apply evalAlert_of_not_fires
    simp [fires, isEligible, h]
  · intro a h
    apply evalAlert_of_not_fires
    simp [fires, shouldTrigger, h]
  · intro a h
    rw [evalAlert_of_fires h]
    refine ⟨rfl, rfl, rfl, rfl, rfl, rfl, ?_, rfl, rfl⟩
    show a.is_active = true
    exact isEligible_is_active (fires_isEligible h)

/-- Witness for claim C10: at a concrete state, an alert belonging to a
different user is not touched by the pass. -/
theorem check_frame_conditions_witness :
    let a : PriceAlert :=
      { id := 4, user_id := 9, symbol := "AAPL", target_price := 170,
        condition := "above", is_triggered := false, is_active := true,
        created_at := 0, triggered_at := none }
    let db : DB :=
      { stocks := [{ symbol := "AAPL", current_price := 357/2 }],
        alerts := [a], balance := 0, holdings := [], orders := [] }
    evalAlert db.stocks 3 7 a = a ∧
      (check_and_trigger_alerts 3 7 db).1.holdings = db.holdings := by
  intro a db
  have h := check_frame_conditions 3 7 db
  exact ⟨h.2.2.2.2.2.2.1 a (by decide), h.2.2.1⟩

/-! Helper lemmas for the refinement proof of claim C8 (production batch
commit versus reference per-alert commits). -/

theorem refLoop_triggered (stocks : List Stock) (now : Nat)
    (snapshot alerts : List PriceAlert) :
    (refLoop stocks now snapshot alerts).2.1
      = (snapshot.filter (shouldTrigger stocks)).map (triggerAlert now) := by
  induction snapshot generalizing alerts with
  | nil => rfl
  | cons a rest ih =>
    by_cases h : shouldTrigger stocks a = true
    · simp [refLoop, h, ih]
    · rw [Bool.not_eq_true] at h
      simp [refLoop, h, ih]

theorem refLoop_commits (stocks : List Stock) (now : Nat)
    (snapshot alerts : List PriceAlert) :
    (refLoop stocks now snapshot alerts).2.2
      = (snapshot.filter (shouldTrigger stocks)).length := by
  induction snapshot generalizing alerts with
  | nil => rfl
  | cons a rest ih =>
    by_cases h : shouldTrigger stocks a = true
    · simp [refLoop, h, ih]
    · rw [Bool.not_eq_true] at h
      simp [refLoop, h, ih]

theorem refLoop_final (stocks : List Stock) (now : Nat)
    (snapshot alerts : List PriceAlert) :
    (refLoop stocks now snapshot alerts).1
      = List.foldl (fun acc a => updateAlertById acc (triggerAlert now a))
          alerts (snapshot.filter (shouldTrigger stocks)) := by
  induction snapshot generalizing alerts with
  | nil => rfl
  | cons a rest ih =>
    by_cases h : shouldTrigger stocks a = true
    · simp [refLoop, h, ih]
    · rw [Bool.not_eq_true] at h
      simp [refLoop, h, ih]

theorem foldl_updateAlertById (now : Nat) (l alerts : List PriceAlert) :
    List.foldl (fun acc a => updateAlertById acc (triggerAlert now a)) alerts l
      = alerts.map (fun b => List.foldl
          (fun x a => if x.id == (triggerAlert now a).id then triggerAlert now a else x)
          b l) := by
  induction l generalizing alerts with
  | nil => simp
  | cons a rest ih =>
    rw [List.foldl_cons, ih, updateAlertById, List.map_map]
    rfl

theorem chain_step_fixed (now : Nat) (b : PriceAlert) (l : List PriceAlert)
    (hl : ∀ a ∈ l, a.id = b.id → a = b) :
    List.foldl
      (fun x a => if x.id == (triggerAlert now a).id then triggerAlert now a else x)
      (triggerAlert now b) l = triggerAlert now b := by
  induction l with
  | nil => rfl
  | cons a rest ih =>
    rw [List.foldl_cons]
    have step : (if (triggerAlert now b).id == (triggerAlert now a).id
        then triggerAlert now a else triggerAlert now b) = triggerAlert now b := by
      by_cases h : a.id = b.id
      · rw [hl a (List.mem_cons_self a rest) h]
        simp
      · have hne : ((triggerAlert now b).id == (triggerAlert now a).id) = false := by
          simp only [triggerAlert, beq_eq_false_iff_ne, ne_eq]
          exact fun hh => h hh.symm
        rw [hne]
        rfl
    rw [step]
    exact ih (fun x hx hid => hl x (List.mem_cons_of_mem a hx) hid)

theorem chain_eval (now : Nat) (b : PriceAlert) (l : List PriceAlert)
    (hl : ∀ a ∈ l, a.id = b.id → a = b) :
    List.foldl
      (fun x a => if x.id == (triggerAlert now a).id then triggerAlert now a else x)
      b l = if b ∈ l then triggerAlert now b else b := by
  induction l with
  | nil => simp
  | cons a rest ih =>
    rw [List.foldl_cons]
    by_cases hid : a.id = b.id
    · have hab : a = b := hl a (List.mem_cons_self a rest) hid
      rw [hab]
      have step : (if b.id == (triggerAlert now b).id then triggerAlert now b else b)
          = triggerAlert now b := by simp [triggerAlert]
      rw [step, chain_step_fixed now b rest
        (fun x hx h => hl x (List.mem_cons_of_mem a hx) h)]
      simp
    · have hba : b ≠ a := fun h => hid (h ▸ rfl)
      have step : (if b.id == (triggerAlert now a).id then triggerAlert now a else b)
          = b := by
        have hne : (b.id == (triggerAlert now a).id) = false := by
          simp only [triggerAlert, beq_eq_false_iff_ne, ne_eq]
          exact fun hh => hid hh.symm
        rw [hne]
        rfl
      rw [step, ih (fun x hx h => hl x (List.mem_cons_of_mem a hx) h)]
      simp [List.mem_cons, hba]

theorem nodup_id_inj {l : List PriceAlert}
    (hid : (l.map PriceAlert.id).Nodup) {a b : PriceAlert}
    (ha : a ∈ l) (hb : b ∈ l) (h : a.id = b.id) : a = b := by
  induction l with
  | nil => cases ha
  | cons x xs ih =>
    simp only [List.map_cons, List.nodup_cons, List.mem_map] at hid
    rcases List.mem_cons.mp ha with rfl | ha2
    · rcases List.mem_cons.mp hb with rfl | hb2
      · rfl
      · exact absurd ⟨b, hb2, h.symm⟩ hid.1
    · rcases List.mem_cons.mp hb with rfl | hb2
      · exact absurd ⟨a, ha2, h⟩ hid.1
      · exact ih hid.2 ha2 hb2

/-- Claim C8: run sequentially on the same state, the production
`check_and_trigger_alerts` (one batch commit) and the reference
implementation (one commit per triggered alert) return the same triggered
list and leave every alert in the same final state, while the production
version performs at most one commit; the reference version performs one
commit per triggered alert. -/
theorem reference_batch_equivalence (now uid : Nat) (db : DB)
    (hid : (db.alerts.map PriceAlert.id).Nodup) :
    (reference_check_and_trigger now uid db).1
      = (check_and_trigger_alerts now uid db).1 ∧
    (reference_check_and_trigger now uid db).2.1
      = (check_and_trigger_alerts now uid db).2 ∧
    (reference_check_and_trigger now uid db).2.2
      = (check_and_trigger_alerts now uid db).2.length ∧
    check_commit_count now uid db ≤ 1 := by
  have hfilter : (db.alerts.filter (isEligible uid)).filter (shouldTrigger db.stocks)
      = db.alerts.filter (fun a => fires db.stocks uid a) := by
    rw [List.filter_filter]
    apply List.filter_congr
    intro a _
    rw [fires]
    exact Bool.and_comm _ _
  have halerts : (refLoop db.stocks now (db.alerts.filter (isEligible uid)) db.alerts).1
      = db.alerts.map (evalAlert db.stocks now uid) := by
    rw [refLoop_final, hfilter, foldl_updateAlertById]
    apply List.map_congr_left
    intro b hb
    have hl : ∀ a ∈ db.alerts.filter (fun a => fires db.stocks uid a),
        a.id = b.id → a = b := fun a ha hidab =>
      nodup_id_inj hid (List.mem_of_mem_filter ha) hb hidab
    rw [chain_eval now b _ hl]
    by_cases hf : fires db.stocks uid b = true
    · rw [if_pos (List.mem_filter.mpr ⟨hb, hf⟩), evalAlert_of_fires hf]
    · rw [Bool.not_eq_true] at hf
      rw [evalAlert_of_not_fires hf, if_neg]
      intro hmem
      have h2 := (List.mem_filter.mp hmem).2
      rw [hf] at h2
      exact Bool.false_ne_true h2
  refine ⟨?_, ?_, ?_, ?_⟩
  · have hrw : (reference_check_and_trigger now uid db).1
        = { db with alerts :=
            (refLoop db.stocks now (db.alerts.filter (isEligible uid)) db.alerts).1 } := rfl
    rw [hrw, halerts]
    rfl
  · have hrw : (reference_check_and_trigger now uid db).2.1
        = (refLoop db.stocks now (db.alerts.filter (isEligible uid)) db.alerts).2.1 := rfl
    rw [hrw, refLoop_triggered, hfilter]
    rfl
  · have hrw : (reference_check_and_trigger now uid db).2.2
        = (refLoop db.stocks now (db.alerts.filter (isEligible uid)) db.alerts).2.2 := rfl
    rw [hrw, refLoop_commits, hfilter]
    show _ = ((db.alerts.filter (fun a => fires db.stocks uid a)).map (triggerAlert now)).length
    rw [List.length_map]
  · rw [check_commit_count]
    by_cases h : (check_and_trigger_alerts now uid db).2.isEmpty = true
    · simp [h]
    · simp [h]

/-- Witness for claim C8 on the one-alert, one-stock state: both versions
agree and the production version commits once. -/
theorem reference_batch_equivalence_witness :
    let a : PriceAlert :=
      { id := 1, user_id := 7, symbol := "AAPL", target_price := 170,
        condition := "above", is_triggered := false, is_active := true,
        created_at := 0, triggered_at := none }
    let db : DB :=
      { stocks := [{ symbol := "AAPL", current_price := 357/2 }],
        alerts := [a], balance := 0, holdings := [], orders := [] }
    (reference_check_and_trigger 3 7 db).1 = (check_and_trigger_alerts 3 7 db).1 ∧
    (reference_check_and_trigger 3 7 db).2.1 = (check_and_trigger_alerts 3 7 db).2 ∧
    (reference_check_and_trigger 3 7 db).2.2
      = (check_and_trigger_alerts 3 7 db).2.length ∧
    check_commit_count 3 7 db ≤ 1 := by
  intro a db
  exact reference_batch_equivalence 3 7 db (by decide)

/-! Helper lemmas for the trading service. -/

theorem execute_order_error_eq (now uid : Nat) (price : ℚ) (order : Order)
    (db : DB) (e : TradingError)
    (h : (execute_order now uid price order db).2 = Except.error e) :
    execute_order now uid price order db = rejectOrder order e db := by
  by_cases hb : (order.side == "buy") = true
  · by_cases hlt : db.balance < price * order.quantity
    · have h2 : TradingError.insufficientFunds (price * order.quantity) db.balance
          = e := by
        simp [execute_order, hb, hlt, rejectOrder] at h
        exact h
      subst h2
      simp [execute_order, hb, hlt]
    · cases hf : findHolding db.holdings uid order.symbol with
      | none => simp [execute_order, hb, hlt, hf, fillOrder] at h
      | some holding => simp [execute_order, hb, hlt, hf, fillOrder] at h
  · rw [Bool.not_eq_true] at hb
    by_cases hs : (order.side == "sell") = true
    · cases hf : findHolding db.holdings uid order.symbol with
      | none =>
        have h2 : TradingError.insufficientShares order.quantity 0 = e := by
          simp [execute_order, hb, hs, hf, rejectOrder] at h
          exact h
        subst h2
        simp [execute_order, hb, hs, hf]
      | some holding =>
        by_cases hq : holding.quantity < order.quantity
        · have h2 : TradingError.insufficientShares order.quantity holding.quantity
              = e := by
            simp [execute_order, hb, hs, hf, hq, rejectOrder] at h
            exact h
          subst h2
          simp [execute_order, hb, hs, hf, hq]
        · by_cases hz : (holding.quantity - order.quantity == 0) = true
          · simp [execute_order, hb, hs, hf, hq, hz, fillOrder] at h
          · rw [Bool.not_eq_true] at hz
            simp [execute_order, hb, hs, hf, hq, hz, fillOrder] at h
    · rw [Bool.not_eq_true] at hs
      simp [execute_order, hb, hs, fillOrder] at h

/-- Claim C3: an order rejected by order execution for insufficient funds or
insufficient shares leaves the cash balance and every holding exactly as
they were; the only table change is the order row itself, whose status
becomes rejected. -/
theorem rejected_order_frame (now uid : Nat) (price : ℚ) (order : Order)
    (db : DB) (e : TradingError)
    (h : (execute_order now uid price order db).2 = Except.error e) :
    (execute_order now uid price order db).1.balance = db.balance ∧
    (execute_order now uid price order db).1.holdings = db.holdings ∧
    (execute_order now uid price order db).1.stocks = db.stocks ∧
    (execute_order now uid price order db).1.alerts = db.alerts ∧
    (execute_order now uid price order db).1.orders
      = updateOrderById db.orders { order with status := "rejected" } ∧
    (∀ o ∈ db.orders, o.id ≠ order.id →
      o ∈ (execute_order now uid price order db).1.orders) := by
  rw [execute_order_error_eq now uid price order db e h]
  refine ⟨rfl, rfl, rfl, rfl, rfl, ?_⟩
  intro o ho hne
  show o ∈ db.orders.map _
  refine List.mem_map.mpr ⟨o, ho, ?_⟩
  simp only [updateOrderById]
  have : (o.id == ({ order with status := "rejected" } : Order).id) = false := by
    simp only [beq_eq_false_iff_ne, ne_eq]
    exact hne
  rw [this]
  rfl

/-- Witness for claim C3: a buy with empty balance is rejected and changes
neither the balance nor the holdings. -/
theorem rejected_order_frame_witness :
    let o : Order :=
      { id := 1, user_id := 7, symbol := "AAPL", order_type := "market",
        side := "buy", quantity := 10, limit_price := none,
        filled_quantity := 0, filled_price := none, status := "pending",
        created_at := 0, updated_at := 0 }
    let db : DB :=
      { stocks := [{ symbol := "AAPL", current_price := 357/2 }],
        alerts := [], balance := 0, holdings := [], orders := [o] }
    (execute_order 0 7 (357/2) o db).1.balance = db.balance ∧
    (execute_order 0 7 (357/2) o db).1.holdings = db.holdings := by
  intro o db
  have herr : (execute_order 0 7 (357/2) o db).2
      = Except.error (TradingError.insufficientFunds ((357/2) * 10) 0) := by
    have hlt : db.balance < (357/2 : ℚ) * o.quantity := by norm_num
    simp [execute_order, hlt, rejectOrder]
  have h := rejected_order_frame 0 7 (357/2) o db _ herr
  exact ⟨h.1, h.2.1⟩

theorem updateFirstH_of_find? {p : Holding → Bool} {l : List Holding}
    {h0 : Holding} (hf : l.find? p = some h0) (f : Holding → Holding) :
    ∃ pre post, l = pre ++ h0 :: post ∧ (∀ x ∈ pre, p x = false) ∧
      updateFirstH p f l = pre ++ f h0 :: post := by
  induction l with
  | nil => cases hf
  | cons x xs ih =>
    by_cases hx : p x = true
    · rw [List.find?_cons_of_pos _ hx, Option.some.injEq] at hf
      subst hf
      exact ⟨[], xs, rfl, by simp, by simp [updateFirstH, hx]⟩
    · rw [Bool.not_eq_true] at hx
      rw [List.find?_cons_of_neg _ (by simp [hx])] at hf
      obtain ⟨pre, post, hl, hpre, hupd⟩ := ih hf
      refine ⟨x :: pre, post, by rw [List.cons_append, hl], ?_, ?_⟩
      · intro y hy
        rcases List.mem_cons.mp hy with rfl | hy2
        · exact hx
        · exact hpre y hy2
      · rw [List.cons_append]
        rw [← hupd]
        simp [updateFirstH, hx]

/-- Claim C4: a filled buy order debits the balance by exactly
`price * quantity`; with no prior holding it creates one with the fill
quantity and price, and with a prior holding it adds the fill quantity and
recomputes the weighted-average buy price. -/
theorem buy_fill_updates_holding (now uid : Nat) (price : ℚ) (order : Order)
    (db : DB) (hside : order.side = "buy")
    (hbal : ¬ db.balance < price * order.quantity) :
    (execute_order now uid price order db).1.balance
      = db.balance - price * order.quantity ∧
    (execute_order now uid price order db).2
      = Except.ok
          { order with
            filled_quantity := order.quantity,
            filled_price := some price,
            status := "filled",
            updated_at := now } ∧
    (findHolding db.holdings uid order.symbol = none →
      (execute_order now uid price order db).1.holdings
        = db.holdings ++
            [{ user_id := uid, symbol := order.symbol,
               quantity := order.quantity, average_buy_price := price }]) ∧
    (∀ h0, findHolding db.holdings uid order.symbol = some h0 →
      ∃ pre post, db.holdings = pre ++ h0 :: post ∧
        (∀ x ∈ pre, (x.user_id == uid && x.symbol == order.symbol) = false) ∧
        (execute_order now uid price order db).1.holdings
          = pre ++
              ({ h0 with
                 quantity := h0.quantity + order.quantity,
                 average_buy_price := (h0.quantity * h0.average_buy_price
                   + order.quantity * price) / (h0.quantity + order.quantity) }
                :: post)) := by
  have hb : (order.side == "buy") = true := by
    rw [hside]
    exact beq_self_eq_true _
  refine ⟨?_, ?_, ?_, ?_⟩
  · cases hf : findHolding db.holdings uid order.symbol with
    | none => simp [execute_order, hb, hbal, hf, fillOrder]
    | some holding => simp [execute_order, hb, hbal, hf, fillOrder]
  · cases hf : findHolding db.holdings uid order.symbol with
    | none => simp [execute_order, hb, hbal, hf, fillOrder]
    | some holding => simp [execute_order, hb, hbal, hf, fillOrder]
  · intro hf
    simp [execute_order, hb, hbal, hf, fillOrder]
  · intro h0 hf
    obtain ⟨pre, post, hl, hpre, hupd⟩ := updateFirstH_of_find? hf
      (fun h =>
        { h with
          average_buy_price := (h0.quantity * h0.average_buy_price
            + order.quantity * price) / (h0.quantity + order.quantity),
          quantity := h0.quantity + order.quantity })
    refine ⟨pre, post, hl, hpre, ?_⟩
    have hh : (execute_order now uid price order db).1.holdings
        = updateFirstH (fun h => h.user_id == uid && h.symbol == order.symbol)
          (fun h =>
            { h with
              average_buy_price := (h0.quantity * h0.average_buy_price
                + order.quantity * price) / (h0.quantity + order.quantity),
              quantity := h0.quantity + order.quantity }) db.holdings := by
      simp [execute_order, hb, hbal, hf, fillOrder]
    rw [hh, hupd]

/-- Witness for claim C4 at the spec example: balance 10000, AAPL at 178.50,
market buy of 10 shares gives balance 8215 and a holding of 10 at 178.50. -/
theorem buy_fill_updates_holding_witness :
    let o : Order :=
      { id := 1, user_id := 7, symbol := "AAPL", order_type := "market",
        side := "buy", quantity := 10, limit_price := none,
        filled_quantity := 0, filled_price := none, status := "pending",
        created_at := 0, updated_at := 0 }
    let db : DB :=
      { stocks := [{ symbol := "AAPL", current_price := 357/2 }],
        alerts := [], balance := 10000, holdings := [], orders := [o] }
    (execute_order 0 7 (357/2) o db).1.balance = 8215 ∧
    (execute_order 0 7 (357/2) o db).1.holdings
      = [{ user_id := 7, symbol := "AAPL", quantity := 10,
           average_buy_price := 357/2 }] := by
  intro o db
  have h := buy_fill_updates_holding 0 7 (357/2) o db rfl (by norm_num)
  constructor
  · rw [h.1]
    norm_num
  · rw [h.2.2.1 rfl]
    rfl

theorem execute_order_fills (now uid : Nat) (price : ℚ) (order : Order)
    (db : DB)
    (hbuy : order.side = "buy" → ¬ db.balance < price * order.quantity)
    (hsell : order.side = "sell" →
      ∃ h0, findHolding db.holdings uid order.symbol = some h0 ∧
        ¬ h0.quantity < order.quantity) :
    (execute_order now uid price order db).2
      = Except.ok
          { order with
            filled_quantity := order.quantity,
            filled_price := some price,
            status := "filled",
            updated_at := now } := by
  by_cases hb : (order.side == "buy") = true
  · have hbal := hbuy (by simpa using hb)
    cases hf : findHolding db.holdings uid order.symbol with
    | none => simp [execute_order, hb, hbal, hf, fillOrder]
    | some h0 => simp [execute_order, hb, hbal, hf, fillOrder]
  · rw [Bool.not_eq_true] at hb
    by_cases hsl : (order.side == "sell") = true
    · obtain ⟨h0, hf, hq⟩ := hsell (by simpa using hsl)
      by_cases hz : (h0.quantity - order.quantity == 0) = true
      · simp [execute_order, hb, hsl, hf, hq, hz, fillOrder]
      · rw [Bool.not_eq_true] at hz
        simp [execute_order, hb, hsl, hf, hq, hz, fillOrder]
    · rw [Bool.not_eq_true] at hsl
      simp [execute_order, hb, hsl, fillOrder]

/-- Claim C5: a market order fills at the current price; a validated limit
buy fills exactly when its limit is at or above the current price, and then
at the current price (so never above the limit); a validated limit sell
fills exactly when its limit is at or below the current price, and then at
the current price (never below the limit); a limit order whose limit is not
reachable is left pending.  Fill outcomes are stated under sufficiency of
funds (buys) or shares (sells); the insufficient cases are claims C3/C6. -/
theorem order_execution_price_policy (now newId uid : Nat) (od : OrderCreate)
    (db : DB) (s : Stock)
    (hs : getStock db.stocks (pyUpper od.symbol) = some s) :
    (od.order_type = "market" →
      (od.side = "buy" → ¬ db.balance < s.current_price * od.quantity) →
      (od.side = "sell" →
        ∃ h0, findHolding db.holdings uid (pyUpper od.symbol) = some h0 ∧
          ¬ h0.quantity < od.quantity) →
      ∃ o, (place_order now newId uid od db).2 = Except.ok o ∧
        o.status = "filled" ∧ o.filled_price = some s.current_price) ∧
    (∀ lp, od.order_type = "limit" → od.limit_price = some lp → lp ≠ 0 →
      ((od.side = "buy" → s.current_price ≤ lp →
        ¬ db.balance < s.current_price * od.quantity →
        ∃ o, (place_order now newId uid od db).2 = Except.ok o ∧
          o.status = "filled" ∧ o.filled_price = some s.current_price ∧
          s.current_price ≤ lp) ∧
      (od.side = "buy" → lp < s.current_price →
        ∃ o, (place_order now newId uid od db).2 = Except.ok o ∧
          o.status = "pending" ∧ o.filled_price = none) ∧
      (od.side = "sell" → lp ≤ s.current_price →
        (∃ h0, findHolding db.holdings uid (pyUpper od.symbol) = some h0 ∧
          ¬ h0.quantity < od.quantity) →
        ∃ o, (place_order now newId uid od db).2 = Except.ok o ∧
          o.status = "filled" ∧ o.filled_price = some s.current_price ∧
          lp ≤ s.current_price) ∧
      (od.side = "sell" → s.current_price < lp →
        ∃ o, (place_order now newId uid od db).2 = Except.ok o ∧
          o.status = "pending" ∧ o.filled_price = none))) := by
  constructor
  · intro hm hbuy hsell
    have hred : place_order now newId uid od db
        = execute_order now uid s.current_price
            { id := newId, user_id := uid, symbol := pyUpper od.symbol,
              order_type := "market", side := od.side, quantity := od.quantity,
              limit_price := od.limit_price, filled_quantity := 0,
              filled_price := none, status := "pending",
              created_at := now, updated_at := now }
            { db with orders := db.orders ++
                [{ id := newId, user_id := uid, symbol := pyUpper od.symbol,
                   order_type := "market", side := od.side,
                   quantity := od.quantity, limit_price := od.limit_price,
                   filled_quantity := 0, filled_price := none,
                   status := "pending", created_at := now,
                   updated_at := now }] } := by
      simp [place_order, hs, hm]
    have hfill : (place_order now newId uid od db).2
        = Except.ok
            { id := newId, user_id := uid, symbol := pyUpper od.symbol,
              order_type := "market", side := od.side, quantity := od.quantity,
              limit_price := od.limit_price, filled_quantity := od.quantity,
              filled_price := some s.current_price, status := "filled",
              created_at := now, updated_at := now } := by
      rw [hred]
      exact execute_order_fills now uid s.current_price _ _ hbuy hsell
    exact ⟨_, hfill, rfl, rfl⟩
  · intro lp hm hlp hlz
    have hfal : pyFalsy (some lp) = false := by
      simp [pyFalsy, hlz]
    refine ⟨?_, ?_, ?_, ?_⟩
    · intro hbuyside hple hbal
      have hred : place_order now newId uid od db
          = execute_order now uid s.current_price
              { id := newId, user_id := uid, symbol := pyUpper od.symbol,
                order_type := "limit", side := "buy", quantity := od.quantity,
                limit_price := some lp, filled_quantity := 0,
                filled_price := none, status := "pending",
                created_at := now, updated_at := now }
              { db with orders := db.orders ++
                  [{ id := newId, user_id := uid, symbol := pyUpper od.symbol,
                     order_type := "limit", side := "buy",
                     quantity := od.quantity, limit_price := some lp,
                     filled_quantity := 0, filled_price := none,
                     status := "pending", created_at := now,
                     updated_at := now }] } := by
        simp [place_order, hs, hm, hfal, hlp, hbuyside, hple]
      have hfill : (place_order now newId uid od db).2
          = Except.ok
              { id := newId, user_id := uid, symbol := pyUpper od.symbol,
                order_type := "limit", side := "buy", quantity := od.quantity,
                limit_price := some lp, filled_quantity := od.quantity,
                filled_price := some s.current_price, status := "filled",
                created_at := now, updated_at := now } := by
        rw [hred]
        exact execute_order_fills now uid s.current_price _ _
          (fun _ => hbal) (fun hcon => by simp at hcon)
      exact ⟨_, hfill, rfl, rfl, hple⟩
    · intro hbuyside hplt
      have hnot : ¬ s.current_price ≤ lp := not_le.mpr hplt
      have hpend : (place_order now newId uid od db).2
          = Except.ok
              { id := newId, user_id := uid, symbol := pyUpper od.symbol,
                order_type := "limit", side := "buy", quantity := od.quantity,
                limit_price := some lp, filled_quantity := 0,
                filled_price := none, status := "pending",
                created_at := now, updated_at := now } := by
        simp [place_order, hs, hm, hfal, hlp, hbuyside, hnot]
      exact ⟨_, hpend, rfl, rfl⟩
    · intro hsellside hple hshares
      have hred : place_order now newId uid od db
          = execute_order now uid s.current_price
              { id := newId, user_id := uid, symbol := pyUpper od.symbol,
                order_type := "limit", side := "sell", quantity := od.quantity,
                limit_price := some lp, filled_quantity := 0,
                filled_price := none, status := "pending",
                created_at := now, updated_at := now }
              { db with orders := db.orders ++
                  [{ id := newId, user_id := uid, symbol := pyUpper od.symbol,
                     order_type := "limit", side := "sell",
                     quantity := od.quantity, limit_price := some lp,
                     filled_quantity := 0, filled_price := none,
                     status := "pending", created_at := now,
                     updated_at := now }] } := by
        simp [place_order, hs, hm, hfal, hlp, hsellside, hple]
      have hfill : (place_order now newId uid od db).2
          = Except.ok
              { id := newId, user_id := uid, symbol := pyUpper od.symbol,
                order_type := "limit", side := "sell", quantity := od.quantity,
                limit_price := some lp, filled_quantity := od.quantity,
                filled_price := some s.current_price, status := "filled",
                created_at := now, updated_at := now } := by
        rw [hred]
        exact execute_order_fills now uid s.current_price _ _
          (fun hcon => by simp at hcon) (fun _ => hshares)
      exact ⟨_, hfill, rfl, rfl, hple⟩
    · intro hsellside hplt
      have hnot : ¬ lp ≤ s.current_price := not_le.mpr hplt
      have hpend : (place_order now newId uid od db).2
          = Except.ok
              { id := newId, user_id := uid, symbol := pyUpper od.symbol,
                order_type := "limit", side := "sell", quantity := od.quantity,
                limit_price := some lp, filled_quantity := 0,
                filled_price := none, status := "pending",
                created_at := now, updated_at := now } := by
        simp [place_order, hs, hm, hfal, hlp, hsellside, hnot]
      exact ⟨_, hpend, rfl, rfl⟩

/-- Witness for claim C5: the market buy of the spec example fills at the
current price 178.50. -/
theorem order_execution_price_policy_witness :
    let od : OrderCreate :=
      { symbol := "AAPL", order_type := "market", side := "buy",
        quantity := 10, limit_price := none }
    let db : DB :=
      { stocks := [{ symbol := "AAPL", current_price := 357/2 }],
        alerts := [], balance := 10000, holdings := [], orders := [] }
    ∃ o, (place_order 0 1 7 od db).2 = Except.ok o ∧
      o.status = "filled" ∧ o.filled_price = some (357/2) := by
  intro od db
  have h := order_execution_price_policy 0 1 7 od db
    { symbol := "AAPL", current_price := 357/2 } rfl
  exact h.1 rfl (fun _ => by norm_num) (fun hcon => absurd hcon (by decide))

theorem execute_order_error_shape (now uid : Nat) (price : ℚ) (order : Order)
    (db : DB) (e : TradingError)
    (h : (execute_order now uid price order db).2 = Except.error e) :
    (∃ r a, e = TradingError.insufficientFunds r a) ∨
    (∃ r a, e = TradingError.insufficientShares r a) := by
  by_cases hb : (order.side == "buy") = true
  · by_cases hlt : db.balance < price * order.quantity
    · have h2 : TradingError.insufficientFunds (price * order.quantity) db.balance
          = e := by
        simp [execute_order, hb, hlt, rejectOrder] at h
        exact h
      exact Or.inl ⟨price * order.quantity, db.balance, h2.symm⟩
    · cases hf : findHolding db.holdings uid order.symbol with
      | none => simp [execute_order, hb, hlt, hf, fillOrder] at h
      | some holding => simp [execute_order, hb, hlt, hf, fillOrder] at h
  · rw [Bool.not_eq_true] at hb
    by_cases hs : (order.side == "sell") = true
    · cases hf : findHolding db.holdings uid order.symbol with
      | none =>
        have h2 : TradingError.insufficientShares order.quantity 0 = e := by
          simp [execute_order, hb, hs, hf, rejectOrder] at h
          exact h
        exact Or.inr ⟨order.quantity, 0, h2.symm⟩
      | some holding =>
        by_cases hq : holding.quantity < order.quantity
        · have h2 : TradingError.insufficientShares order.quantity holding.quantity
              = e := by
            simp [execute_order, hb, hs, hf, hq, rejectOrder] at h
            exact h
          exact Or.inr ⟨order.quantity, holding.quantity, h2.symm⟩
        · by_cases hz : (holding.quantity - order.quantity == 0) = true
          · simp [execute_order, hb, hs, hf, hq, hz, fillOrder] at h
          · rw [Bool.not_eq_true] at hz
            simp [execute_order, hb, hs, hf, hq, hz, fillOrder] at h
    · rw [Bool.not_eq_true] at hs
      simp [execute_order, hb, hs, fillOrder] at h

theorem updateOrderById_append_fresh (orders : List Order) (order o2 : Order)
    (hfresh : ∀ o ∈ orders, o.id ≠ order.id) (hid : o2.id = order.id) :
    updateOrderById (orders ++ [order]) o2 = orders ++ [o2] := by
  unfold updateOrderById
  rw [List.map_append]
  congr 1
  · have hpt : ∀ o ∈ orders, (fun x => if x.id == o2.id then o2 else x) o = o := by
      intro o ho
      have hne : (o.id == o2.id) = false := by
        simp only [beq_eq_false_iff_ne, ne_eq, hid]
        exact hfresh o ho
      simp [hne]
    exact (List.map_congr_left hpt).trans (List.map_id _)
  · have ht : (order.id == o2.id) = true := by
      rw [hid]
      exact beq_self_eq_true _
    rw [List.map_cons, List.map_nil, ht]
    rfl

theorem place_order_execute_error (now newId uid : Nat) (od : OrderCreate)
    (db : DB) (e : TradingError) (price : ℚ) (ord : Order)
    (hred : place_order now newId uid od db
      = execute_order now uid price ord { db with orders := db.orders ++ [ord] })
    (hordid : ord.id = newId)
    (herr : (place_order now newId uid od db).2 = Except.error e)
    (hfresh : ∀ o ∈ db.orders, o.id ≠ newId) :
    ((∃ r a, e = TradingError.insufficientFunds r a) ∨
      (∃ r a, e = TradingError.insufficientShares r a)) ∧
    ∃ o2, (place_order now newId uid od db).1.orders = db.orders ++ [o2] ∧
      o2.status = "rejected" := by
  rw [hred] at herr
  have hshape := execute_order_error_shape now uid price ord _ e herr
  have heq := execute_order_error_eq now uid price ord _ e herr
  refine ⟨hshape, { ord with status := "rejected" }, ?_, rfl⟩
  rw [hred, heq]
  exact updateOrderById_append_fresh db.orders ord _
    (fun o ho hcontra => hfresh o ho (hcontra.trans hordid)) rfl

/-- Counterexample to claim C6 as stated: a limit order that does carry a
limit price, namely 0, on a known symbol with a valid quantity, is still
rejected with the limit-price-required validation error, because the code
tests the limit price for Python falsiness rather than for absence; claim
C6 allows no error in this situation. -/
theorem limit_price_zero_counterexample :
    let od : OrderCreate :=
      { symbol := "AAPL", order_type := "limit", side := "buy",
        quantity := 1, limit_price := some 0 }
    let db : DB :=
      { stocks := [{ symbol := "AAPL", current_price := 357/2 }],
        alerts := [], balance := 10000, holdings := [], orders := [] }
    od.limit_price ≠ none ∧
    validate_quantity od.quantity = Except.ok od.quantity ∧
    getStock db.stocks (pyUpper od.symbol)
      = some { symbol := "AAPL", current_price := 357/2 } ∧
    (place_order 0 1 7 od db).2 = Except.error TradingError.limitPriceRequired := by
  intro od db
  refine ⟨by simp, ?_, rfl, ?_⟩
  · norm_num [validate_quantity]
  · rfl

/-- Claim C6 (amended): place_order fails with not-found exactly when the
symbol has no stock row; with the limit-price validation error when a limit
order has a falsy limit price, that is, a missing one or the explicit value
0 (the code tests Python truthiness, so 0 counts as missing); insufficient
funds or shares cause a rejection in which the order is persisted with
status rejected rather than silently dropped; non-positive quantities are
rejected by the request schema; and no other error is raised. -/
theorem place_order_error_taxonomy (now newId uid : Nat) (od : OrderCreate)
    (db : DB) (hfresh : ∀ o ∈ db.orders, o.id ≠ newId) :
    (∀ q, validate_quantity q
      = Except.error "quantity must be greater than 0" ↔ q ≤ 0) ∧
    (getStock db.stocks (pyUpper od.symbol) = none →
      (place_order now newId uid od db).2
        = Except.error (TradingError.stockNotFound (pyUpper od.symbol)) ∧
      (place_order now newId uid od db).1 = db) ∧
    (od.order_type = "limit" → pyFalsy od.limit_price = true →
      ∀ s, getStock db.stocks (pyUpper od.symbol) = some s →
        (place_order now newId uid od db).2
          = Except.error TradingError.limitPriceRequired ∧
        (place_order now newId uid od db).1 = db) ∧
    (∀ e, (place_order now newId uid od db).2 = Except.error e →
      ((∃ sym, e = TradingError.stockNotFound sym ∧
          TradingError.status_code e = 404) ∧
        (place_order now newId uid od db).1 = db) ∨
      (e = TradingError.limitPriceRequired ∧
        (place_order now newId uid od db).1 = db) ∨
      (((∃ r a, e = TradingError.insufficientFunds r a) ∨
          (∃ r a, e = TradingError.insufficientShares r a)) ∧
        ∃ o2, (place_order now newId uid od db).1.orders = db.orders ++ [o2] ∧
          o2.status = "rejected")) := by
  refine ⟨?_, ?_, ?_, ?_⟩
  · intro q
    by_cases hq : q ≤ 0
    · simp [validate_quantity, hq]
    · simp [validate_quantity, hq]
  · intro hg
    exact ⟨by simp [place_order, hg], by simp [place_order, hg]⟩
  · intro hm hfal s hgs
    exact ⟨by simp [place_order, hgs, hm, hfal], by simp [place_order, hgs, hm, hfal]⟩
  · intro e herr
    cases hg : getStock db.stocks (pyUpper od.symbol) with
    | none =>
      have he : TradingError.stockNotFound (pyUpper od.symbol) = e := by
        simp [place_order, hg] at herr
        exact herr
      refine Or.inl ⟨⟨pyUpper od.symbol, he.symm, ?_⟩, by simp [place_order, hg]⟩
      rw [← he]
      rfl
    | some s =>
      by_cases hfal : (od.order_type == "limit" && pyFalsy od.limit_price) = true
      · have he : TradingError.limitPriceRequired = e := by
          simp only [place_order, hg, hfal, if_true] at herr
          exact (Except.error.injEq _ _).mp herr
        exact Or.inr (Or.inl ⟨he.symm, by simp only [place_order, hg, hfal, if_true]⟩)
      · rw [Bool.not_eq_true] at hfal
        by_cases hmk : (od.order_type == "market") = true
        · have hm2 : od.order_type = "market" := by simpa using hmk
          have hred : place_order now newId uid od db
              = execute_order now uid s.current_price
                  { id := newId, user_id := uid, symbol := pyUpper od.symbol,
                    order_type := "market", side := od.side,
                    quantity := od.quantity, limit_price := od.limit_price,
                    filled_quantity := 0, filled_price := none,
                    status := "pending", created_at := now, updated_at := now }
                  { db with orders := db.orders ++
                      [{ id := newId, user_id := uid,
                         symbol := pyUpper od.symbol, order_type := "market",
                         side := od.side, quantity := od.quantity,
                         limit_price := od.limit_price, filled_quantity := 0,
                         filled_price := none, status := "pending",
                         created_at := now, updated_at := now }] } := by
            simp [place_order, hg, hm2]
          exact Or.inr (Or.inr
            (place_order_execute_error now newId uid od db e s.current_price _
              hred rfl herr hfresh))
        · by_cases hlim : (od.order_type == "limit") = true
          · have hm2 : od.order_type = "limit" := by simpa using hlim
            cases hlp : od.limit_price with
            | none =>
              rw [hm2, hlp] at hfal
              simp [pyFalsy] at hfal
            | some lp =>
              have hfal2 : pyFalsy (some lp) = false := by
                rw [hm2, hlp] at hfal
                simpa using hfal
              by_cases hbuyx :
                  (od.side == "buy" && decide (lp ≥ s.current_price)) = true
              · have hred : place_order now newId uid od db
                    = execute_order now uid s.current_price
                        { id := newId, user_id := uid,
                          symbol := pyUpper od.symbol, order_type := "limit",
                          side := od.side, quantity := od.quantity,
                          limit_price := some lp, filled_quantity := 0,
                          filled_price := none, status := "pending",
                          created_at := now, updated_at := now }
                        { db with orders := db.orders ++
                            [{ id := newId, user_id := uid,
                               symbol := pyUpper od.symbol,
                               order_type := "limit", side := od.side,
                               quantity := od.quantity,
                               limit_price := some lp, filled_quantity := 0,
                               filled_price := none, status := "pending",
                               created_at := now, updated_at := now }] } := by
                  simp [place_order, hg, hm2, hlp, hfal2, hbuyx]
                exact Or.inr (Or.inr
                  (place_order_execute_error now newId uid od db e
                    s.current_price _ hred rfl herr hfresh))
              · rw [Bool.not_eq_true] at hbuyx
                by_cases hsellx :
                    (od.side == "sell" && decide (lp ≤ s.current_price)) = true
                · have hred : place_order now newId uid od db
                      = execute_order now uid s.current_price
                          { id := newId, user_id := uid,
                            symbol := pyUpper od.symbol, order_type := "limit",
                            side := od.side, quantity := od.quantity,
                            limit_price := some lp, filled_quantity := 0,
                            filled_price := none, status := "pending",
                            created_at := now, updated_at := now }
                          { db with orders := db.orders ++
                              [{ id := newId, user_id := uid,
                                 symbol := pyUpper od.symbol,
                                 order_type := "limit", side := od.side,
                                 quantity := od.quantity,
                                 limit_price := some lp, filled_quantity := 0,
                                 filled_price := none, status := "pending",
                                 created_at := now, updated_at := now }] } := by
                    simp [place_order, hg, hm2, hlp, hfal2, hbuyx, hsellx]
                  exact Or.inr (Or.inr
                    (place_order_execute_error now newId uid od db e
                      s.current_price _ hred rfl herr hfresh))
                · rw [Bool.not_eq_true] at hsellx
                  simp [place_order, hg, hm2, hlp, hfal2, hbuyx, hsellx] at herr
          · rw [Bool.not_eq_true] at hlim
            simp [place_order, hg, hfal, hmk, hlim] at herr

/-- Witness for the amended claim C6: an unknown symbol yields the
not-found error and leaves the state unchanged. -/
theorem place_order_error_taxonomy_witness :
    let od : OrderCreate :=
      { symbol := "ZZZZ", order_type := "market", side := "buy",
        quantity := 1, limit_price := none }
    let db : DB :=
      { stocks := [{ symbol := "AAPL", current_price := 357/2 }],
        alerts := [], balance := 10000, holdings := [], orders := [] }
    (place_order 0 1 7 od db).2
      = Except.error (TradingError.stockNotFound (pyUpper "ZZZZ")) ∧
    (place_order 0 1 7 od db).1 = db := by
  intro od db
  exact (place_order_error_taxonomy 0 1 7 od db (by simp)).2.1 rfl

theorem nodup_order_id_inj {l : List Order}
    (hid : (l.map Order.id).Nodup) {a b : Order}
    (ha : a ∈ l) (hb : b ∈ l) (h : a.id = b.id) : a = b := by
  induction l with
  | nil => cases ha
  | cons x xs ih =>
    simp only [List.map_cons, List.nodup_cons, List.mem_map] at hid
    rcases List.mem_cons.mp ha with rfl | ha2
    · rcases List.mem_cons.mp hb with rfl | hb2
      · rfl
      · exact absurd ⟨b, hb2, h.symm⟩ hid.1
    · rcases List.mem_cons.mp hb with rfl | hb2
      · exact absurd ⟨a, ha2, h⟩ hid.1
      · exact ih hid.2 ha2 hb2

/-- Claim C7: cancel_order returns the order with status cancelled exactly
when an order with the given id exists for the user and is pending; it
fails with not-found when no such order exists and with the
invalid-state-transition error, leaving the state unchanged, when the order
is not pending; and no order in a terminal state (filled, rejected,
cancelled) is ever changed by cancellation. -/
theorem cancel_order_state_machine (now uid oid : Nat) (db : DB)
    (hid : (db.orders.map Order.id).Nodup) :
    (db.orders.find? (fun x => x.id == oid && x.user_id == uid) = none →
      (cancel_order now uid oid db).2 = Except.error TradingError.orderNotFound ∧
      (cancel_order now uid oid db).1 = db) ∧
    (∀ o, db.orders.find? (fun x => x.id == oid && x.user_id == uid) = some o →
      (o.status = "pending" →
        (cancel_order now uid oid db).2
          = Except.ok { o with status := "cancelled", updated_at := now } ∧
        (cancel_order now uid oid db).1.orders
          = updateOrderById db.orders
              { o with status := "cancelled", updated_at := now }) ∧
      (o.status ≠ "pending" →
        (cancel_order now uid oid db).2
          = Except.error (TradingError.cannotCancel o.status) ∧
        (cancel_order now uid oid db).1 = db)) ∧
    (∀ o ∈ db.orders,
      o.status = "filled" ∨ o.status = "rejected" ∨ o.status = "cancelled" →
      o ∈ (cancel_order now uid oid db).1.orders) := by
  refine ⟨?_, ?_, ?_⟩
  · intro hf
    exact ⟨by simp [cancel_order, hf], by simp [cancel_order, hf]⟩
  · intro o hf
    constructor
    · intro hp
      have hb : (o.status != "pending") = false := by
        simp [bne, hp]
      exact ⟨by simp [cancel_order, hf, hb], by simp [cancel_order, hf, hb]⟩
    · intro hnp
      have hb : (o.status != "pending") = true := by
        simpa [bne_iff_ne] using hnp
      exact ⟨by simp [cancel_order, hf, hb], by simp [cancel_order, hf, hb]⟩
  · intro o ho hterm
    cases hf : db.orders.find? (fun x => x.id == oid && x.user_id == uid) with
    | none =>
      have : (cancel_order now uid oid db).1 = db := by simp [cancel_order, hf]
      rw [this]
      exact ho
    | some f =>
      by_cases hfp : (f.status != "pending") = true
      · have : (cancel_order now uid oid db).1 = db := by
          simp [cancel_order, hf, hfp]
        rw [this]
        exact ho
      · rw [Bool.not_eq_true] at hfp
        have hfpend : f.status = "pending" := by
          have := hfp
          rw [bne] at this
          simpa using this
        have hof : o ≠ f := by
          intro hcontra
          rw [hcontra, hfpend] at hterm
          rcases hterm with h1 | h1 | h1 <;> exact absurd h1 (by decide)
        have hne : o.id ≠ f.id := by
          intro hcontra
          exact hof (nodup_order_id_inj hid ho
            (List.mem_of_find?_eq_some hf) hcontra)
        have hres : (cancel_order now uid oid db).1.orders
            = updateOrderById db.orders
                { f with status := "cancelled", updated_at := now } := by
          simp [cancel_order, hf, hfp]
        rw [hres]
        refine List.mem_map.mpr ⟨o, ho, ?_⟩
        have hb : (o.id == ({ f with status := "cancelled", updated_at := now } : Order).id) = false := by
          simpa using hne
        rw [hb]
        rfl

/-- Witness for claim C7: cancelling a concrete pending order returns it
with status cancelled, and a filled order in the table is untouched. -/
theorem cancel_order_state_machine_witness :
    let o1 : Order :=
      { id := 5, user_id := 7, symbol := "AAPL", order_type := "limit",
        side := "buy", quantity := 1, limit_price := some 100,
        filled_quantity := 0, filled_price := none, status := "pending",
        created_at := 0, updated_at := 0 }
    let o2 : Order :=
      { id := 6, user_id := 7, symbol := "AAPL", order_type := "market",
        side := "buy", quantity := 1, limit_price := none,
        filled_quantity := 1, filled_price := some 170, status := "filled",
        created_at := 0, updated_at := 0 }
    let db : DB :=
      { stocks := [{ symbol := "AAPL", current_price := 357/2 }],
        alerts := [], balance := 0, holdings := [], orders := [o1, o2] }
    (cancel_order 9 7 5 db).2
      = Except.ok { o1 with status := "cancelled", updated_at := 9 } ∧
    o2 ∈ (cancel_order 9 7 5 db).1.orders := by
  intro o1 o2 db
  have h := cancel_order_state_machine 9 7 5 db (by decide)
  exact ⟨((h.2.1 o1 rfl).1 rfl).1,
    h.2.2 o2 (by simp) (Or.inl rfl)⟩

end Robinhood
